import Mathlib

/-!
Verification of the synthetic node-dataset generator (`generate_nodes.py`).

The development shallowly embeds the program: the random module's draws and
the uuid entropy are threaded through as explicit streams, machine floats
become rationals, instants become whole seconds, and fallible operations
(list indexing, `random.choice` on a possibly-empty list, CSV row writing)
return `Except`.
-/

/-! ## Calendar and timestamp utilities (models `datetime.strptime` / `strftime`
for the fixed format `%Y-%m-%dT%H:%M:%S.000Z`, with instants as whole seconds
counted from 0000-03-01 of the proleptic Gregorian calendar). -/

def digitVal (c : Char) : ℕ := c.toNat - 48

def take2Digits (l : List Char) : Option (ℕ × List Char) :=
  match l with
  | c1 :: rest =>
    if c1.isDigit then
      match rest with
      | c2 :: rest2 =>
        if c2.isDigit then some (digitVal c1 * 10 + digitVal c2, rest2)
        else some (digitVal c1, rest)
      | [] => some (digitVal c1, [])
    else none
  | [] => none

def take4Digits (l : List Char) : Option (ℕ × List Char) :=
  match l with
  | a :: b :: c :: d :: rest =>
    if a.isDigit && b.isDigit && c.isDigit && d.isDigit then
      some (((digitVal a * 10 + digitVal b) * 10 + digitVal c) * 10 + digitVal d, rest)
    else none
  | _ => none

def expectChar (c : Char) (l : List Char) : Option (List Char) :=
  match l with
  | x :: rest => if x = c then some rest else none
  | [] => none

def isLeap (y : ℕ) : Bool := y % 4 == 0 && (y % 100 != 0 || y % 400 == 0)

def daysInMonth (y m : ℕ) : ℕ :=
  if m = 2 then (if isLeap y then 29 else 28)
  else if m = 4 ∨ m = 6 ∨ m = 9 ∨ m = 11 then 30
  else 31

/-- Days since 0000-03-01 of a proleptic-Gregorian civil date (valid for years ≥ 1). -/
def daysFromCivil (y m d : ℕ) : ℕ :=
  let yy := if m ≤ 2 then y - 1 else y
  let era := yy / 400
  let yoe := yy % 400
  let mp := if 2 < m then m - 3 else m + 9
  let doy := (153 * mp + 2) / 5 + d - 1
  let doe := yoe * 365 + yoe / 4 - yoe / 100 + doy
  era * 146097 + doe

def toEpoch (y m d h mi s : ℕ) : ℕ :=
  daysFromCivil y m d * 86400 + h * 3600 + mi * 60 + s

/-- Inverse of `daysFromCivil`. -/
def civilFromDays (z : ℕ) : ℕ × ℕ × ℕ :=
  let era := z / 146097
  let doe := z % 146097
  let yoe := (doe - doe / 1460 + doe / 36524 - doe / 146096) / 365
  let y := yoe + era * 400
  let doy := doe - (365 * yoe + yoe / 4 - yoe / 100)
  let mp := (5 * doy + 2) / 153
  let d := doy - (153 * mp + 2) / 5 + 1
  let m := if mp < 10 then mp + 3 else mp - 9
  (if m ≤ 2 then y + 1 else y, m, d)

def pad2 (n : ℕ) : String := if n < 10 then "0" ++ toString n else toString n

def pad4 (n : ℕ) : String :=
  if n < 10 then "000" ++ toString n
  else if n < 100 then "00" ++ toString n
  else if n < 1000 then "0" ++ toString n
  else toString n

/-- Model of `t.strftime(ISO_Z)` for a whole-second instant `t`: the date-time
part followed by the literal sub-second-and-zone marker `".000Z"` of the format
string `ISO_Z = "%Y-%m-%dT%H:%M:%S.000Z"`. -/
def epochToIsoZ (t : ℤ) : String :=
  let z := t.toNat
  let days := z / 86400
  let rem := z % 86400
  let ymd := civilFromDays days
  (pad4 ymd.1 ++ "-" ++ pad2 ymd.2.1 ++ "-" ++ pad2 ymd.2.2 ++ "T" ++
    pad2 (rem / 3600) ++ ":" ++ pad2 (rem % 3600 / 60) ++ ":" ++ pad2 (rem % 60)) ++ ".000Z"

/-- Model of `datetime.strptime(s, ISO_Z)` (+ UTC): 4-digit year, 1-2 digit
month/day/hour/minute/second fields, the literal tail `".000Z"`, and the
range checks the `datetime` constructor performs; returns the instant in
whole seconds. -/
def parseIsoZ (str : String) : Option ℕ := do
  let l := str.data
  let (y, l) ← take4Digits l
  let l ← expectChar '-' l
  let (m, l) ← take2Digits l
  let l ← expectChar '-' l
  let (d, l) ← take2Digits l
  let l ← expectChar 'T' l
  let (h, l) ← take2Digits l
  let l ← expectChar ':' l
  let (mi, l) ← take2Digits l
  let l ← expectChar ':' l
  let (s, l) ← take2Digits l
  if l = ['.', '0', '0', '0', 'Z'] then
    if 1 ≤ y ∧ 1 ≤ m ∧ m ≤ 12 ∧ 1 ≤ d ∧ d ≤ daysInMonth y m ∧ h ≤ 23 ∧ mi ≤ 59 ∧ s ≤ 59 then
      some (toEpoch y m d h mi s)
    else none
  else none

/-! ## Numeric helpers: Python `round` (banker's rounding) and `random.uniform`. -/

/-- Python `round(q)` to the nearest integer, ties to even. -/
def pyRound (q : ℚ) : ℤ :=
  if q - ⌊q⌋ < 1/2 then ⌊q⌋
  else if 1/2 < q - ⌊q⌋ then ⌊q⌋ + 1
  else if ⌊q⌋ % 2 = 0 then ⌊q⌋ else ⌊q⌋ + 1

/-- Python `round(q, 2)`. -/
def pyRound2 (q : ℚ) : ℚ := (pyRound (q * 100) : ℚ) / 100

/-- `random.uniform(a, b) = a + (b - a) * random.random()`. -/
def uniformQ (a b u : ℚ) : ℚ := a + (b - a) * u

/-- The instant produced by `random_timestamp`: `start + r * (end - start)`
seconds with the sub-second part zeroed (`t.replace(microsecond=0)` truncates,
i.e. floors to the whole second, the endpoints being whole seconds). -/
def randomTimestampSec (start endv : ℤ) (r : ℚ) : ℤ :=
  start + ⌊r * ((endv : ℚ) - (start : ℚ))⌋

/-- Model of `random_timestamp`: the sampled instant rendered by `strftime(ISO_Z)`. -/
def random_timestamp (start endv : ℤ) (r : ℚ) : String :=
  epochToIsoZ (randomTimestampSec start endv r)

/-! ## The node record and the generator. -/

/-- One generated record, fields in the dict insertion order of the source. -/
structure Node where
  timestamp : String
  NodeId : String
  BufferHealth : ℚ
  SessionId : String
  Source : String
  level : ℕ
deriving DecidableEq, Repr

/-- The draws taken from the `random` module; after `random.seed(seed)` these
are a pure function of the seed. `coin` is the root-or-not `random.random()`,
`pick` the `random.randint(0, i-1)` draw, `fpick` the `random.choice` draw on
the fallback list, `unif` the `random.random()` inside `random.uniform`, and
`tsr` the `random.random()` inside `random_timestamp`, each indexed by the
record index that consumes it. -/
structure SeededRng where
  coin : ℕ → ℚ
  pick : ℕ → ℕ
  fpick : ℕ → ℕ
  unif : ℕ → ℚ
  tsr : ℕ → ℚ

/-- The entropy consumed by `gen_uuid` (`uuid.uuid4()` reads `os.urandom`,
which `random.seed` does not influence): the NodeId and SessionId strings per
record index. -/
structure UuidSrc where
  nodeId : ℕ → String
  sessionId : ℕ → String

structure GenCfg where
  n : ℕ
  root_share : ℚ
  buffer_min : ℚ
  buffer_max : ℚ
  startSec : ℤ
  endSec : ℤ
  max_level_tree : ℤ

/-- The loop state: the ordered record list `nodes` and the incrementally
maintained `notes_under_max_level` list. -/
structure GenState where
  nodes : List Node
  notesUnder : List Node

/-- Appending a freshly built record: always to `nodes`, and to
`notes_under_max_level` exactly when `level < max_level_tree`. -/
def pushNode (cfg : GenCfg) (st : GenState) (node : Node) : GenState :=
  { nodes := st.nodes ++ [node],
    notesUnder :=
      if (node.level : ℤ) < cfg.max_level_tree then st.notesUnder ++ [node]
      else st.notesUnder }

/-- One iteration of the generation loop at index `i`. `random.randint(0, i-1)`
is modelled as an arbitrary stream value reduced mod `i`, `random.choice` as
indexing mod the list length, erroring on the empty list exactly as Python
raises `IndexError`. -/
def genStep (cfg : GenCfg) (rng : SeededRng) (u : UuidSrc) (i : ℕ) (st : GenState) :
    Except String GenState :=
  let node_id := u.nodeId i
  let session_id := u.sessionId i
  let buffer_health := pyRound2 (uniformQ cfg.buffer_min cfg.buffer_max (rng.unif i))
  let ts := random_timestamp cfg.startSec cfg.endSec (rng.tsr i)
  if i = 0 ∨ rng.coin i < cfg.root_share then
    .ok (pushNode cfg st ⟨ts, node_id, buffer_health, session_id, "CDN", 1⟩)
  else
    match st.nodes.get? (rng.pick i % i) with
    | none => .error "IndexError: list index out of range"
    | some parent =>
      if (parent.level : ℤ) ≤ cfg.max_level_tree - 1 then
        .ok (pushNode cfg st ⟨ts, node_id, buffer_health, session_id, parent.NodeId, parent.level + 1⟩)
      else
        match st.notesUnder.get? (rng.fpick i % st.notesUnder.length) with
        | none => .error "IndexError: cannot choose from an empty sequence"
        | some chosen =>
          .ok (pushNode cfg st ⟨ts, node_id, buffer_health, session_id, chosen.NodeId, chosen.level + 1⟩)

/-- The first `k` iterations of the generation loop. -/
def genUpTo (cfg : GenCfg) (rng : SeededRng) (u : UuidSrc) : ℕ → Except String GenState
  | 0 => .ok ⟨[], []⟩
  | k + 1 => do
    let st ← genUpTo cfg rng u k
    genStep cfg rng u k st

/-- Model of `generate_nodes`: parse and check the time window, then run the
loop (seeding is modelled by the caller fixing `rng` as a function of the seed). -/
def generate_nodes (n : ℕ) (root_share buffer_min buffer_max : ℚ)
    (start_ts end_ts : String) (max_level_tree : ℤ)
    (rng : SeededRng) (u : UuidSrc) : Except String (List Node) :=
  match parseIsoZ start_ts, parseIsoZ end_ts with
  | some s, some e =>
    if e ≤ s then .error "--end-ts must be after --start-ts"
    else Except.map GenState.nodes
      (genUpTo ⟨n, root_share, buffer_min, buffer_max, (s : ℤ), (e : ℤ), max_level_tree⟩ rng u n)
  | _, _ => .error "Invalid timestamp format. Use ISO like 2025-07-14T09:51:36.000Z"

/-- The command-line arguments the claims touch. -/
structure Args where
  rows : ℤ
  root_share : ℚ
  buffer_min : ℚ
  buffer_max : ℚ
  start_ts : String
  end_ts : String
  max_level_tree : ℤ

namespace Script

/-- Model of `main` up to the record generation: the eager validations in their
source order, then `generate_nodes`. -/
def main (a : Args) (rng : SeededRng) (u : UuidSrc) : Except String (List Node) :=
  if a.rows ≤ 0 then .error "--rows must be positive"
  else if ¬(0 ≤ a.root_share ∧ a.root_share ≤ 1) then .error "--root-share must be between 0 and 1"
  else if a.buffer_max < a.buffer_min then .error "--buffer-min cannot exceed --buffer-max"
  else generate_nodes a.rows.toNat a.root_share a.buffer_min a.buffer_max
    a.start_ts a.end_ts a.max_level_tree rng u

end Script

/-! ## Serialization and tabular export. A JSONL file is a list of lines, each
either blank or the serialization of one JSON object (`json.dumps` of a dict
round-trips through `json.loads`, preserving key insertion order). -/

/-- A JSON scalar as it appears in the generated records. -/
inductive JVal where
  | str (s : String)
  | num (q : ℚ)
deriving DecidableEq, Repr

/-- The JSON object (Python dict) of a record, keys in insertion order. -/
def toObj (r : Node) : List (String × JVal) :=
  [("timestamp", .str r.timestamp), ("NodeId", .str r.NodeId),
   ("BufferHealth", .num r.BufferHealth), ("SessionId", .str r.SessionId),
   ("Source", .str r.Source), ("level", .num (r.level : ℚ))]

/-- One line of a line-delimited source file: blank/whitespace-only, or a
well-formed serialized object. -/
inductive Line where
  | blank
  | obj (o : List (String × JVal))
deriving DecidableEq, Repr

/-- Model of `write_jsonl`: one serialized object per line, in order. -/
def write_jsonl (rows : List Node) : List Line :=
  rows.map (fun r => Line.obj (toObj r))

/-- Model of `csv.DictWriter.writerow` with the default `extrasaction="raise"`
and `restval=""`: a key outside `fieldnames` raises `ValueError`; a missing
key yields the empty-string rest value. -/
def writeRow (fieldnames : List String) (o : List (String × JVal)) :
    Except String (List JVal) :=
  if o.all (fun kv => fieldnames.contains kv.1) then
    .ok (fieldnames.map (fun f => (o.lookup f).getD (JVal.str "")))
  else .error "ValueError: dict contains fields not in fieldnames"

/-- One iteration of the `stream_jsonl_to_csv` loop. The accumulator is the
optional header (the `writer`, `None` until the first non-blank line fixes the
fieldnames from that object's own keys) and the data rows written so far. -/
def streamStep (acc : Option (List String) × List (List JVal)) (l : Line) :
    Except String (Option (List String) × List (List JVal)) :=
  match l with
  | .blank => .ok acc
  | .obj o =>
    match acc.1 with
    | none =>
      let fieldnames := o.map Prod.fst
      Except.map (fun row => (some fieldnames, acc.2 ++ [row])) (writeRow fieldnames o)
    | some fieldnames =>
      Except.map (fun row => (acc.1, acc.2 ++ [row])) (writeRow fieldnames o)

/-- Model of `stream_jsonl_to_csv`: the emitted header (if any line produced
one) and the emitted data rows, or the first raised error. -/
def stream_jsonl_to_csv (file : List Line) :
    Except String (Option (List String) × List (List JVal)) :=
  file.foldlM streamStep (none, [])

/-- The objects of the non-blank lines, in order. -/
def objsOf (file : List Line) : List (List (String × JVal)) :=
  file.filterMap (fun l => match l with | .blank => none | .obj o => some o)

/-- The column list the streaming exporter derives from a generated record:
the record's own keys, `level` included. -/
def csvFields : List String :=
  ["timestamp", "NodeId", "BufferHealth", "SessionId", "Source", "level"]

/-- The CSV data row of a generated record. -/
def rowOf (r : Node) : List JVal :=
  [.str r.timestamp, .str r.NodeId, .num r.BufferHealth, .str r.SessionId,
   .str r.Source, .num (r.level : ℚ)]

deriving instance DecidableEq for Except

/-! ## Fixtures for concrete runs: constant random streams and default
configuration values. -/

/-- A concrete seeded stream: the root coin always 1 (so every index `i > 0`
attaches to a parent when `root_share < 1`), all other draws 0. -/
def rngK : SeededRng := ⟨fun _ => 1, fun _ => 0, fun _ => 0, fun _ => 0, fun _ => 0⟩

/-- A concrete uuid-entropy source producing the id `"a"` for every record. -/
def uK : UuidSrc := ⟨fun _ => "a", fun _ => "a"⟩

/-- Uuid entropy producing `"b"` everywhere, for the seed-reproducibility run. -/
def uB : UuidSrc := ⟨fun _ => "b", fun _ => "b"⟩

/-- The default `--start-ts`. -/
def DSTART : String := "2025-01-01T00:00:00.000Z"

/-- The default `--end-ts`. -/
def DEND : String := "2025-12-31T23:59:59.000Z"

/-! ## The generation-loop invariant. -/

/-- Everything the claims need about the loop state after `k` iterations:
the record count, the meaning of the `notes_under_max_level` list, and for
every record its level bounds, id provenance, health provenance, and the
link to its parent record. -/
def GenInv (cfg : GenCfg) (rng : SeededRng) (u : UuidSrc) (k : ℕ) (st : GenState) : Prop :=
  st.nodes.length = k ∧
  (∀ x ∈ st.notesUnder, (x.level : ℤ) < cfg.max_level_tree ∧ x ∈ st.nodes) ∧
  (∀ i, ∀ hi : i < st.nodes.length,
    1 ≤ st.nodes[i].level ∧
    st.nodes[i].NodeId = u.nodeId i ∧
    st.nodes[i].BufferHealth = pyRound2 (uniformQ cfg.buffer_min cfg.buffer_max (rng.unif i)) ∧
    (1 ≤ cfg.max_level_tree → (st.nodes[i].level : ℤ) ≤ cfg.max_level_tree) ∧
    ((st.nodes[i].Source = "CDN" ∧ st.nodes[i].level = 1) ∨
      ∃ j, ∃ hj : j < st.nodes.length, j < i ∧
        st.nodes[j].NodeId = st.nodes[i].Source ∧
        st.nodes[i].level = st.nodes[j].level + 1)) ∧
  (2 ≤ cfg.max_level_tree → 1 ≤ k → st.notesUnder ≠ [])

lemma inv_push (cfg : GenCfg) (rng : SeededRng) (u : UuidSrc) (k : ℕ) (st : GenState)
    (node : Node)
    (hInv : GenInv cfg rng u k st)
    (hid : node.NodeId = u.nodeId k)
    (hbh : node.BufferHealth = pyRound2 (uniformQ cfg.buffer_min cfg.buffer_max (rng.unif k)))
    (hlev1 : 1 ≤ node.level)
    (hlevle : 1 ≤ cfg.max_level_tree → (node.level : ℤ) ≤ cfg.max_level_tree)
    (hsrc : (node.Source = "CDN" ∧ node.level = 1) ∨
      ∃ j, ∃ hj : j < st.nodes.length,
        st.nodes[j].NodeId = node.Source ∧ node.level = st.nodes[j].level + 1)
    (hroot0 : 2 ≤ cfg.max_level_tree → k = 0 → (node.level : ℤ) < cfg.max_level_tree) :
    GenInv cfg rng u (k + 1) (pushNode cfg st node) := by
  obtain ⟨hlen, hnu, hnode, hne⟩ := hInv
  have hnodes2 : (pushNode cfg st node).nodes = st.nodes ++ [node] := rfl
  refine ⟨?_, ?_, ?_, ?_⟩
  · simp [pushNode, hlen]
  · intro x hx
    unfold pushNode at hx
    simp only [hnodes2]
    by_cases hcond : (node.level : ℤ) < cfg.max_level_tree
    · simp only [if_pos hcond] at hx
      rcases List.mem_append.1 hx with hold | hnew
      · exact ⟨(hnu x hold).1, List.mem_append_left _ (hnu x hold).2⟩
      · have hx2 : x = node := by simpa using hnew
        subst hx2
        exact ⟨hcond, List.mem_append_right _ (by simp)⟩
    · simp only [if_neg hcond] at hx
      exact ⟨(hnu x hx).1, List.mem_append_left _ (hnu x hx).2⟩
  · intro i hi
    simp only [hnodes2] at hi ⊢
    rcases Nat.lt_or_ge i st.nodes.length with hilt | hige
    · rw [List.getElem_append_left hilt]
      obtain ⟨p1, p2, p3, p4, p5⟩ := hnode i hilt
      refine ⟨p1, p2, p3, p4, ?_⟩
      rcases p5 with hroot | ⟨j, hj, hji, hjid, hjlev⟩
      · exact Or.inl hroot
      · refine Or.inr ⟨j, ?_, hji, ?_, ?_⟩
        · simp only [List.length_append, List.length_cons, List.length_nil]
          omega
        · rw [List.getElem_append_left hj]
          exact hjid
        · rw [List.getElem_append_left hj]
          exact hjlev
    · have hik : i = st.nodes.length := by
        simp only [List.length_append, List.length_cons, List.length_nil] at hi
        omega
      rw [List.getElem_concat_length _ _ _ hik]
      refine ⟨hlev1, by rw [hik, hlen]; exact hid, by rw [hik, hlen]; exact hbh, hlevle, ?_⟩
      rcases hsrc with hroot | ⟨j, hj, hjid, hjlev⟩
      · exact Or.inl hroot
      · refine Or.inr ⟨j, ?_, by omega, ?_, ?_⟩
        · simp only [List.length_append, List.length_cons, List.length_nil]
          omega
        · rw [List.getElem_append_left hj]
          exact hjid
        · rw [List.getElem_append_left hj]
          exact hjlev
  · intro hml _
    unfold pushNode
    by_cases hk : k = 0
    · have := hroot0 hml hk
      simp only [if_pos this]
      simp
    · have hne2 := hne hml (by omega)
      by_cases hcond : (node.level : ℤ) < cfg.max_level_tree
      · simp only [if_pos hcond]
        simp
      · simp only [if_neg hcond]
        exact hne2

lemma genInv_zero (cfg : GenCfg) (rng : SeededRng) (u : UuidSrc) :
    GenInv cfg rng u 0 ⟨[], []⟩ := by
  refine ⟨rfl, ?_, ?_, ?_⟩
  · intro x hx
    simp at hx
  · intro i hi
    simp at hi
  · intro _ h
    omega

lemma inv_step (cfg : GenCfg) (rng : SeededRng) (u : UuidSrc) (k : ℕ) (st st2 : GenState)
    (hInv : GenInv cfg rng u k st)
    (hstep : genStep cfg rng u k st = .ok st2) :
    GenInv cfg rng u (k + 1) st2 := by
  have hlen : st.nodes.length = k := hInv.1
  unfold genStep at hstep
  split at hstep
  · -- root branch
    cases hstep
    apply inv_push cfg rng u k st _ hInv rfl rfl (Nat.le_refl 1) ?_ (Or.inl ⟨rfl, rfl⟩) ?_
    · intro h
      show ((1 : ℕ) : ℤ) ≤ cfg.max_level_tree
      omega
    · intro hml _
      show ((1 : ℕ) : ℤ) < cfg.max_level_tree
      omega
  · rename_i hcond
    split at hstep
    · exact absurd hstep (by simp)
    · rename_i parent hget
      have hpk : rng.pick k % k < st.nodes.length := by
        have hk0 : k ≠ 0 := fun h => hcond (Or.inl h)
        rw [hlen]
        exact Nat.mod_lt _ (Nat.pos_of_ne_zero hk0)
      have hparent : st.nodes[rng.pick k % k] = parent := by
        rw [List.get?_eq_getElem?] at hget
        rw [List.getElem?_eq_getElem hpk] at hget
        exact Option.some.inj hget
      split at hstep
      · -- direct attach
        rename_i hlev
        cases hstep
        apply inv_push cfg rng u k st _ hInv rfl rfl
          (Nat.succ_le_succ (Nat.zero_le parent.level)) ?_ ?_ ?_
        · intro _
          show ((parent.level + 1 : ℕ) : ℤ) ≤ cfg.max_level_tree
          push_cast
          omega
        · exact Or.inr ⟨rng.pick k % k, hpk, by rw [hparent], by rw [hparent]⟩
        · intro _ hk
          exact absurd (Or.inl hk) hcond
      · split at hstep
        · exact absurd hstep (by simp)
        · rename_i chosen hgetc
          cases hstep
          have hmem : chosen ∈ st.notesUnder := by
            rw [List.get?_eq_getElem?] at hgetc
            obtain ⟨hlt2, heq2⟩ := List.getElem?_eq_some.1 hgetc
            exact heq2 ▸ List.getElem_mem hlt2
          obtain ⟨hchlev, hchmem⟩ := hInv.2.1 chosen hmem
          obtain ⟨j, hj, hjeq⟩ := List.getElem_of_mem hchmem
          apply inv_push cfg rng u k st _ hInv rfl rfl
            (Nat.succ_le_succ (Nat.zero_le chosen.level)) ?_ ?_ ?_
          · intro _
            show ((chosen.level + 1 : ℕ) : ℤ) ≤ cfg.max_level_tree
            push_cast
            omega
          · exact Or.inr ⟨j, hj, by rw [hjeq], by rw [hjeq]⟩
          · intro _ hk
            exact absurd (Or.inl hk) hcond

lemma inv_genUpTo (cfg : GenCfg) (rng : SeededRng) (u : UuidSrc) (k : ℕ) (st : GenState)
    (h : genUpTo cfg rng u k = .ok st) : GenInv cfg rng u k st := by
  induction k generalizing st with
  | zero =>
    simp only [genUpTo] at h
    cases h
    exact genInv_zero cfg rng u
  | succ k ih =>
    simp only [genUpTo] at h
    cases h1 : genUpTo cfg rng u k with
    | error e =>
      rw [h1] at h
      exact absurd h (by simp [Bind.bind, Except.bind])
    | ok st1 =>
      rw [h1] at h
      simp only [Bind.bind, Except.bind] at h
      exact inv_step cfg rng u k st1 st (ih st1 h1) h

lemma genStep_ok (cfg : GenCfg) (rng : SeededRng) (u : UuidSrc) (k : ℕ) (st : GenState)
    (hml : 2 ≤ cfg.max_level_tree)
    (hInv : GenInv cfg rng u k st) :
    ∃ st2, genStep cfg rng u k st = .ok st2 := by
  have hlen : st.nodes.length = k := hInv.1
  unfold genStep
  split
  · exact ⟨_, rfl⟩
  · rename_i hcond
    have hk0 : k ≠ 0 := fun h => hcond (Or.inl h)
    have hpk : rng.pick k % k < st.nodes.length := by
      rw [hlen]
      exact Nat.mod_lt _ (Nat.pos_of_ne_zero hk0)
    rw [List.get?_eq_getElem?, List.getElem?_eq_getElem hpk]
    simp only
    split
    · exact ⟨_, rfl⟩
    · have hne : st.notesUnder ≠ [] := hInv.2.2.2 hml (by omega)
      have hlenu : 0 < st.notesUnder.length := List.length_pos.2 hne
      have hfk : rng.fpick k % st.notesUnder.length < st.notesUnder.length :=
        Nat.mod_lt _ hlenu
      rw [List.get?_eq_getElem?, List.getElem?_eq_getElem hfk]
      exact ⟨_, rfl⟩

lemma genUpTo_ok (cfg : GenCfg) (rng : SeededRng) (u : UuidSrc)
    (hml : 2 ≤ cfg.max_level_tree) (k : ℕ) :
    ∃ st, genUpTo cfg rng u k = .ok st := by
  induction k with
  | zero => exact ⟨_, rfl⟩
  | succ k ih =>
    obtain ⟨st, hst⟩ := ih
    obtain ⟨st2, hst2⟩ := genStep_ok cfg rng u k st hml (inv_genUpTo cfg rng u k st hst)
    refine ⟨st2, ?_⟩
    simp only [genUpTo, hst, Bind.bind, Except.bind]
    exact hst2

/-- Inversion of a successful `generate_nodes` run: the parsed window and the
loop result it came from. -/
lemma generate_nodes_inv (n : ℕ) (rs bmin bmax : ℚ) (sts ets : String) (ml : ℤ)
    (rng : SeededRng) (u : UuidSrc) (nodes : List Node)
    (h : generate_nodes n rs bmin bmax sts ets ml rng u = .ok nodes) :
    ∃ s e st, parseIsoZ sts = some s ∧ parseIsoZ ets = some e ∧ ¬(e ≤ s) ∧
      genUpTo ⟨n, rs, bmin, bmax, (s : ℤ), (e : ℤ), ml⟩ rng u n = .ok st ∧
      nodes = st.nodes := by
  unfold generate_nodes at h
  split at h
  · rename_i s e hs he
    split at h
    · exact absurd h (by simp)
    · rename_i hse
      cases h2 : genUpTo ⟨n, rs, bmin, bmax, (s : ℤ), (e : ℤ), ml⟩ rng u n with
      | error msg =>
        rw [h2] at h
        exact absurd h (by simp [Except.map])
      | ok st =>
        rw [h2] at h
        simp only [Except.map] at h
        exact ⟨s, e, st, hs, he, hse, h2, (Except.ok.inj h).symm⟩
  · exact absurd h (by simp)

/-! ## Claim theorems. -/

/-- C1: in every successful `generate_nodes` run, every record at index
`i > 0` whose `Source` is not the root sentinel `"CDN"` carries the `NodeId`
of a record at a strictly smaller index, so the `source → id` edge graph is
acyclic by construction. -/
theorem generate_nodes_source_earlier
    (n : ℕ) (rs bmin bmax : ℚ) (sts ets : String) (ml : ℤ)
    (rng : SeededRng) (u : UuidSrc) (nodes : List Node)
    (h : generate_nodes n rs bmin bmax sts ets ml rng u = .ok nodes)
    (i : ℕ) (hi : i < nodes.length) (hpos : 0 < i)
    (hs : nodes[i].Source ≠ "CDN") :
    ∃ j, ∃ hj : j < nodes.length, j < i ∧ nodes[j].NodeId = nodes[i].Source := by
  obtain ⟨s, e, st, _, _, _, hgen, hnodes⟩ := generate_nodes_inv _ _ _ _ _ _ _ _ _ _ h
  subst hnodes
  have hInv := inv_genUpTo _ rng u n st hgen
  rcases (hInv.2.2.1 i hi).2.2.2.2 with ⟨hsrc, _⟩ | ⟨j, hj, hji, hjid, _⟩
  · exact absurd hsrc hs
  · exact ⟨j, hj, hji, hjid⟩

/-- C2: in every successful run whose uuid entropy never produces the literal
`"CDN"` (as `uuid.uuid4()` never does), every record has `level ≥ 1`; a record
whose `Source` is the root sentinel has `level = 1`; and a record whose
`Source` is not the sentinel has `level` exactly one more than the level of an
earlier record whose `NodeId` its `Source` names. -/
theorem generate_nodes_level_linkage
    (n : ℕ) (rs bmin bmax : ℚ) (sts ets : String) (ml : ℤ)
    (rng : SeededRng) (u : UuidSrc) (nodes : List Node)
    (hcdn : ∀ i, u.nodeId i ≠ "CDN")
    (h : generate_nodes n rs bmin bmax sts ets ml rng u = .ok nodes)
    (i : ℕ) (hi : i < nodes.length) :
    1 ≤ nodes[i].level ∧
    (nodes[i].Source = "CDN" → nodes[i].level = 1) ∧
    (nodes[i].Source ≠ "CDN" →
      ∃ j, ∃ hj : j < nodes.length, j < i ∧ nodes[j].NodeId = nodes[i].Source ∧
        nodes[i].level = nodes[j].level + 1) := by
  obtain ⟨s, e, st, _, _, _, hgen, hnodes⟩ := generate_nodes_inv _ _ _ _ _ _ _ _ _ _ h
  subst hnodes
  have hInv := inv_genUpTo _ rng u n st hgen
  obtain ⟨p1, _, _, _, p5⟩ := hInv.2.2.1 i hi
  refine ⟨p1, ?_, ?_⟩
  · intro hsrc
    rcases p5 with ⟨_, hl1⟩ | ⟨j, hj, _, hjid, _⟩
    · exact hl1
    · have hjprov := (hInv.2.2.1 j hj).2.1
      rw [hjprov, hsrc] at hjid
      exact absurd hjid (hcdn j)
  · intro hsrc
    rcases p5 with ⟨hc, _⟩ | ⟨j, hj, hji, hjid, hjlev⟩
    · exact absurd hc hsrc
    · exact ⟨j, hj, hji, hjid, hjlev⟩

/-- C3: in every successful run with a positive configured depth ceiling,
no record's `level` exceeds `max_level_tree`. -/
theorem generate_nodes_level_le_max
    (n : ℕ) (rs bmin bmax : ℚ) (sts ets : String) (ml : ℤ)
    (rng : SeededRng) (u : UuidSrc) (nodes : List Node)
    (hml : 1 ≤ ml)
    (h : generate_nodes n rs bmin bmax sts ets ml rng u = .ok nodes)
    (i : ℕ) (hi : i < nodes.length) :
    (nodes[i].level : ℤ) ≤ ml := by
  obtain ⟨s, e, st, _, _, _, hgen, hnodes⟩ := generate_nodes_inv _ _ _ _ _ _ _ _ _ _ h
  subst hnodes
  have hInv := inv_genUpTo _ rng u n st hgen
  exact (hInv.2.2.1 i hi).2.2.2.1 hml

/-- C4: with `max_level_tree ≥ 2` and a valid time window, `generate_nodes`
always succeeds: whenever the fallback branch is reached, the incrementally
maintained under-ceiling list is non-empty (the index-0 root always sits in
it), so the `random.choice`-on-empty error branch is unreachable. -/
theorem generate_nodes_fallback_never_fails
    (n : ℕ) (rs bmin bmax : ℚ) (sts ets : String) (ml : ℤ)
    (rng : SeededRng) (u : UuidSrc) (s e : ℕ)
    (hs : parseIsoZ sts = some s) (he : parseIsoZ ets = some e) (hlt : s < e)
    (hml : 2 ≤ ml) :
    ∃ nodes, generate_nodes n rs bmin bmax sts ets ml rng u = .ok nodes := by
  obtain ⟨st, hst⟩ := genUpTo_ok ⟨n, rs, bmin, bmax, (s : ℤ), (e : ℤ), ml⟩ rng u hml n
  refine ⟨st.nodes, ?_⟩
  unfold generate_nodes
  rw [hs, he]
  show (if e ≤ s then (Except.error "--end-ts must be after --start-ts" : Except String (List Node))
      else Except.map GenState.nodes
        (genUpTo ⟨n, rs, bmin, bmax, (s : ℤ), (e : ℤ), ml⟩ rng u n)) = Except.ok st.nodes
  rw [if_neg (by omega), hst]
  rfl

/-- The record list of the concrete two-row run
`generate_nodes 2 (1/10) 0 200 DSTART DEND _ rngK uK`. -/
@[reducible] def nodesPair : List Node :=
  [⟨"2025-01-01T00:00:00.000Z", "a", 0, "a", "CDN", 1⟩,
   ⟨"2025-01-01T00:00:00.000Z", "a", 0, "a", "a", 2⟩]

section ConcreteRuns

attribute [local semireducible] Rat.add Rat.mul Rat.sub Rat.inv Rat.ofScientific

/-- Witness for C1 at the two-row run: record 1 is non-root and its `Source`
is the `NodeId` of record 0. -/
theorem generate_nodes_source_earlier_witness :
    ∃ j, ∃ hj : j < nodesPair.length, j < 1 ∧ nodesPair[j].NodeId = nodesPair[1].Source :=
  generate_nodes_source_earlier 2 (1/10) 0 200 DSTART DEND 100 rngK uK nodesPair
    (by decide) 1 (by decide) (by decide) (by decide)

/-- Witness for C2 at the two-row run, record 1. -/
theorem generate_nodes_level_linkage_witness :
    1 ≤ nodesPair[1].level ∧
    (nodesPair[1].Source = "CDN" → nodesPair[1].level = 1) ∧
    (nodesPair[1].Source ≠ "CDN" →
      ∃ j, ∃ hj : j < nodesPair.length, j < 1 ∧ nodesPair[j].NodeId = nodesPair[1].Source ∧
        nodesPair[1].level = nodesPair[j].level + 1) :=
  generate_nodes_level_linkage 2 (1/10) 0 200 DSTART DEND 100 rngK uK nodesPair
    (fun _ h => (by decide : ¬(("a" : String) = "CDN")) h) (by decide) 1 (by decide)

/-- Witness for C3 at the two-row run, record 1. -/
theorem generate_nodes_level_le_max_witness :
    (nodesPair[1].level : ℤ) ≤ 100 :=
  generate_nodes_level_le_max 2 (1/10) 0 200 DSTART DEND 100 rngK uK nodesPair
    (by decide) (by decide) 1 (by decide)

/-- Witness for C4: a concrete run with depth ceiling 2 succeeds. -/
theorem generate_nodes_fallback_never_fails_witness :
    ∃ nodes, generate_nodes 2 (1/10) 0 200 DSTART DEND 2 rngK uK = .ok nodes :=
  generate_nodes_fallback_never_fails 2 (1/10) 0 200 DSTART DEND 2 rngK uK
    63897724800 63929260799 (by decide) (by decide) (by decide) (by decide)

end ConcreteRuns

/-- Rounding to the nearest integer (ties to even) moves a rational by at most 1/2. -/
lemma pyRound_close (q : ℚ) : |((pyRound q : ℤ) : ℚ) - q| ≤ 1/2 := by
  unfold pyRound
  have hf0 : 0 ≤ q - ⌊q⌋ := by
    have := Int.floor_le q
    linarith
  have hf1 : q - ⌊q⌋ < 1 := by
    have := Int.lt_floor_add_one q
    linarith
  split_ifs with ha hb hc <;> rw [abs_le] <;> constructor <;> push_cast <;> linarith

/-- Rounding to two decimals moves a rational by at most 1/200. -/
lemma pyRound2_close (q : ℚ) : |pyRound2 q - q| ≤ 1/200 := by
  unfold pyRound2
  have h := pyRound_close (q * 100)
  rw [abs_le] at h ⊢
  obtain ⟨hl, hr⟩ := h
  constructor <;> [linarith; linarith]

/-- C8: under the precondition `start < end`, with the `random.random()` draw
`r ∈ [0, 1)`, the sampled instant lies in the closed window `[start, end]`;
its preimage in `r`-space is the uniform-width interval characterised by the
floor equation; and the rendered text carries zero sub-second precision and
the literal UTC marker `".000Z"`. -/
theorem random_timestamp_spec (s e : ℤ) (r : ℚ)
    (hse : s < e) (h0 : 0 ≤ r) (h1 : r < 1) :
    (s ≤ randomTimestampSec s e r ∧ randomTimestampSec s e r ≤ e) ∧
    (∀ t : ℤ, randomTimestampSec s e r = t ↔
      ((t : ℚ) - (s : ℚ) ≤ r * ((e : ℚ) - (s : ℚ)) ∧
        r * ((e : ℚ) - (s : ℚ)) < (t : ℚ) - (s : ℚ) + 1)) ∧
    (∃ p, random_timestamp s e r = p ++ ".000Z") := by
  have hcast : (s : ℚ) < (e : ℚ) := by exact_mod_cast hse
  have hx0 : 0 ≤ r * ((e : ℚ) - (s : ℚ)) := mul_nonneg h0 (by linarith)
  have hxlt : r * ((e : ℚ) - (s : ℚ)) < (e : ℚ) - (s : ℚ) := by
    have := mul_lt_mul_of_pos_right h1 (show (0:ℚ) < (e : ℚ) - (s : ℚ) by linarith)
    linarith
  refine ⟨⟨?_, ?_⟩, ?_, ⟨_, rfl⟩⟩
  · have h2 : 0 ≤ ⌊r * ((e : ℚ) - (s : ℚ))⌋ := Int.floor_nonneg.2 hx0
    unfold randomTimestampSec
    omega
  · have h3 : ⌊r * ((e : ℚ) - (s : ℚ))⌋ < e - s := by
      apply Int.floor_lt.2
      push_cast
      linarith
    unfold randomTimestampSec
    omega
  · intro t
    unfold randomTimestampSec
    constructor
    · intro ht
      have hfl : ⌊r * ((e : ℚ) - (s : ℚ))⌋ = t - s := by omega
      obtain ⟨ha, hb⟩ := Int.floor_eq_iff.1 hfl
      constructor <;> push_cast at ha hb ⊢ <;> linarith
    · intro hin
      obtain ⟨ha, hb⟩ := hin
      have hfl : ⌊r * ((e : ℚ) - (s : ℚ))⌋ = t - s := by
        apply Int.floor_eq_iff.2
        constructor <;> push_cast <;> linarith
      omega

/-- C9 (amended): each record's `BufferHealth` is the two-decimal rounding of
a uniform sample drawn inside the configured closed interval; the rounding can
leave the interval by at most half a cent, so the value lies in
`[buffer_min - 1/200, buffer_max + 1/200]` (but not always in
`[buffer_min, buffer_max]` itself). -/
theorem generate_nodes_buffer_health_bounds
    (n : ℕ) (rs bmin bmax : ℚ) (sts ets : String) (ml : ℤ)
    (rng : SeededRng) (u : UuidSrc) (nodes : List Node)
    (hb : bmin ≤ bmax)
    (hu : ∀ i, 0 ≤ rng.unif i ∧ rng.unif i ≤ 1)
    (h : generate_nodes n rs bmin bmax sts ets ml rng u = .ok nodes)
    (i : ℕ) (hi : i < nodes.length) :
    (∃ q, bmin ≤ q ∧ q ≤ bmax ∧ nodes[i].BufferHealth = pyRound2 q) ∧
    bmin - 1/200 ≤ nodes[i].BufferHealth ∧ nodes[i].BufferHealth ≤ bmax + 1/200 := by
  obtain ⟨s, e, st, _, _, _, hgen, hnodes⟩ := generate_nodes_inv _ _ _ _ _ _ _ _ _ _ h
  subst hnodes
  have hInv := inv_genUpTo _ rng u n st hgen
  have hbh := (hInv.2.2.1 i hi).2.2.1
  obtain ⟨hu0, hu1⟩ := hu i
  have hq0 : bmin ≤ uniformQ bmin bmax (rng.unif i) := by
    unfold uniformQ
    nlinarith
  have hq1 : uniformQ bmin bmax (rng.unif i) ≤ bmax := by
    unfold uniformQ
    nlinarith
  have hclose := pyRound2_close (uniformQ bmin bmax (rng.unif i))
  rw [abs_le] at hclose
  refine ⟨⟨uniformQ bmin bmax (rng.unif i), hq0, hq1, hbh⟩, ?_, ?_⟩ <;> rw [hbh] <;>
    obtain ⟨hcl, hcr⟩ := hclose <;> linarith

/-! ## Lemmas about the streaming tabular export. -/

lemma toObj_keys (r : Node) : (toObj r).map Prod.fst = csvFields := rfl

lemma writeRow_toObj (r : Node) : writeRow csvFields (toObj r) = .ok (rowOf r) := rfl

lemma stream_run_from_header (l : List Node) (rows0 : List (List JVal)) :
    List.foldlM streamStep (some csvFields, rows0) (write_jsonl l)
      = .ok (some csvFields, rows0 ++ l.map rowOf) := by
  induction l generalizing rows0 with
  | nil => simp [write_jsonl]; rfl
  | cons x xs ih =>
    have hstep : streamStep (some csvFields, rows0) (Line.obj (toObj x))
        = .ok (some csvFields, rows0 ++ [rowOf x]) := by
      simp [streamStep, writeRow_toObj x, Except.map]
    simp only [write_jsonl, List.map_cons, List.foldlM_cons, hstep, Bind.bind, Except.bind]
    rw [show (List.map (fun r => Line.obj (toObj r)) xs) = write_jsonl xs from rfl, ih]
    simp

/-- C6 (amended): serializing a successful `n`-record run (`n ≥ 1`) as JSONL
and tabular-exporting it yields one header row plus exactly `n` data rows, the
columns being exactly the six generated field names `timestamp, NodeId,
BufferHealth, SessionId, Source, level` — the `level` field is included, not
omitted, because the streaming exporter takes its columns from the first
record's own keys. -/
theorem write_jsonl_stream_csv_roundtrip
    (n : ℕ) (rs bmin bmax : ℚ) (sts ets : String) (ml : ℤ)
    (rng : SeededRng) (u : UuidSrc) (nodes : List Node)
    (hn : 1 ≤ n)
    (h : generate_nodes n rs bmin bmax sts ets ml rng u = .ok nodes) :
    stream_jsonl_to_csv (write_jsonl nodes) = .ok (some csvFields, nodes.map rowOf) ∧
    (nodes.map rowOf).length = n ∧ "level" ∈ csvFields := by
  have hlen : nodes.length = n := by
    obtain ⟨s, e, st, _, _, _, hgen, hnodes⟩ := generate_nodes_inv _ _ _ _ _ _ _ _ _ _ h
    subst hnodes
    exact (inv_genUpTo _ rng u n st hgen).1
  refine ⟨?_, by simp [hlen], by simp [csvFields]⟩
  cases nodes with
  | nil =>
    simp at hlen
    omega
  | cons x xs =>
    have hstep : streamStep (none, []) (Line.obj (toObj x)) = .ok (some csvFields, [rowOf x]) := by
      simp [streamStep, toObj_keys, writeRow_toObj, Except.map]
    unfold stream_jsonl_to_csv
    simp only [write_jsonl, List.map_cons, List.foldlM_cons, hstep, Bind.bind, Except.bind]
    rw [show (List.map (fun r => Line.obj (toObj r)) xs) = write_jsonl xs from rfl,
      stream_run_from_header]
    simp

lemma writeRow_error_of_extra (fns : List String) (o : List (String × JVal))
    (hex : ∃ k ∈ o.map Prod.fst, k ∉ fns) :
    writeRow fns o = .error "ValueError: dict contains fields not in fieldnames" := by
  unfold writeRow
  rw [if_neg]
  intro hall
  obtain ⟨k, hk, hnot⟩ := hex
  obtain ⟨kv, hkv, hkeq⟩ := List.mem_map.1 hk
  have hc := List.all_eq_true.1 hall kv hkv
  rw [List.contains, List.elem_iff] at hc
  exact hnot (hkeq ▸ hc)

lemma writeRow_ok_of_sub (fns : List String) (o : List (String × JVal))
    (hsub : ∀ k ∈ o.map Prod.fst, k ∈ fns) :
    ∃ row, writeRow fns o = .ok row := by
  unfold writeRow
  rw [if_pos]
  · exact ⟨_, rfl⟩
  · apply List.all_eq_true.2
    intro kv hkv
    rw [List.contains, List.elem_iff]
    exact hsub kv.1 (List.mem_map.2 ⟨kv, hkv, rfl⟩)

lemma foldl_error_of_extra (file : List Line) :
    ∀ fns rows0, (∃ o ∈ objsOf file, ∃ k ∈ o.map Prod.fst, k ∉ fns) →
      ∃ msg, List.foldlM streamStep (some fns, rows0) file = .error msg := by
  induction file with
  | nil =>
    intro fns rows0 hex
    simp [objsOf] at hex
  | cons l t ih =>
    intro fns rows0 hex
    cases l with
    | blank =>
      have hobjs : objsOf (Line.blank :: t) = objsOf t := by simp [objsOf]
      rw [hobjs] at hex
      obtain ⟨msg, hmsg⟩ := ih fns rows0 hex
      refine ⟨msg, ?_⟩
      simp only [List.foldlM_cons, streamStep, Bind.bind, Except.bind]
      exact hmsg
    | obj o =>
      have hobjs : objsOf (Line.obj o :: t) = o :: objsOf t := by simp [objsOf]
      rw [hobjs] at hex
      by_cases hko : ∃ k ∈ o.map Prod.fst, k ∉ fns
      · have hstep : streamStep (some fns, rows0) (Line.obj o)
            = .error "ValueError: dict contains fields not in fieldnames" := by
          simp [streamStep, writeRow_error_of_extra fns o hko, Except.map]
        refine ⟨"ValueError: dict contains fields not in fieldnames", ?_⟩
        simp only [List.foldlM_cons, hstep, Bind.bind, Except.bind]
      · have hsub : ∀ k ∈ o.map Prod.fst, k ∈ fns := by
          intro k hk
          by_contra hnk
          exact hko ⟨k, hk, hnk⟩
        obtain ⟨row, hrow⟩ := writeRow_ok_of_sub fns o hsub
        have hex2 : ∃ o2 ∈ objsOf t, ∃ k ∈ o2.map Prod.fst, k ∉ fns := by
          obtain ⟨o2, ho2, hx⟩ := hex
          rcases List.mem_cons.1 ho2 with heq | htail
          · subst heq
            exact absurd hx hko
          · exact ⟨o2, htail, hx⟩
        obtain ⟨msg, hmsg⟩ := ih fns (rows0 ++ [row]) hex2
        refine ⟨msg, ?_⟩
        simp only [List.foldlM_cons, streamStep, hrow, Except.map, Bind.bind, Except.bind]
        exact hmsg

lemma foldl_rows_length (file : List Line) :
    ∀ (hdr0 : Option (List String)) (rows0 : List (List JVal)) (hdr : Option (List String))
      (rows : List (List JVal)),
      List.foldlM streamStep (hdr0, rows0) file = .ok (hdr, rows) →
      rows.length = rows0.length + (objsOf file).length := by
  induction file with
  | nil =>
    intro hdr0 rows0 hdr rows h
    have h2 : hdr0 = hdr ∧ rows0 = rows := by
      simpa [List.foldlM_nil, pure, Except.pure] using h
    obtain ⟨h3, h4⟩ := h2
    subst h4
    simp [objsOf]
  | cons l t ih =>
    intro hdr0 rows0 hdr rows h
    cases l with
    | blank =>
      simp only [List.foldlM_cons, streamStep, Bind.bind, Except.bind] at h
      have := ih hdr0 rows0 hdr rows h
      simp only [objsOf, List.filterMap_cons]
      exact this
    | obj o =>
      cases hdr0 with
      | none =>
        simp only [List.foldlM_cons, streamStep, Bind.bind, Except.bind] at h
        cases hw : writeRow (o.map Prod.fst) o with
        | error msg =>
          rw [hw] at h
          simp [Except.map] at h
        | ok row =>
          rw [hw] at h
          simp only [Except.map] at h
          have := ih _ _ hdr rows h
          simp only [List.length_append, List.length_cons, List.length_nil] at this
          simp only [objsOf, List.filterMap_cons] at this ⊢
          simp only [List.length_cons]
          omega
      | some fns =>
        simp only [List.foldlM_cons, streamStep, Bind.bind, Except.bind] at h
        cases hw : writeRow fns o with
        | error msg =>
          rw [hw] at h
          simp [Except.map] at h
        | ok row =>
          rw [hw] at h
          simp only [Except.map] at h
          have := ih _ _ hdr rows h
          simp only [List.length_append, List.length_cons, List.length_nil] at this
          simp only [objsOf, List.filterMap_cons] at this ⊢
          simp only [List.length_cons]
          omega

lemma stream_error_from_start (file : List Line) :
    ∀ o0 rest, objsOf file = o0 :: rest →
      (∃ o ∈ rest, ∃ k ∈ o.map Prod.fst, k ∉ o0.map Prod.fst) →
      ∃ msg, List.foldlM streamStep ((none : Option (List String)), ([] : List (List JVal))) file
        = .error msg := by
  induction file with
  | nil =>
    intro o0 rest hfirst
    simp [objsOf] at hfirst
  | cons l t ih =>
    intro o0 rest hfirst hex
    cases l with
    | blank =>
      have hobjs : objsOf (Line.blank :: t) = objsOf t := by simp [objsOf]
      rw [hobjs] at hfirst
      obtain ⟨msg, hmsg⟩ := ih o0 rest hfirst hex
      refine ⟨msg, ?_⟩
      simp only [List.foldlM_cons, streamStep, Bind.bind, Except.bind]
      exact hmsg
    | obj o =>
      have hobjs : objsOf (Line.obj o :: t) = o :: objsOf t := by simp [objsOf]
      rw [hobjs] at hfirst
      obtain ⟨ho, hrest⟩ := List.cons.inj hfirst
      subst ho
      obtain ⟨row, hrow⟩ := writeRow_ok_of_sub (o.map Prod.fst) o (fun k hk => hk)
      have hex2 : ∃ o2 ∈ objsOf t, ∃ k ∈ o2.map Prod.fst, k ∉ o.map Prod.fst := by
        rw [hrest]
        exact hex
      obtain ⟨msg, hmsg⟩ := foldl_error_of_extra t (o.map Prod.fst) ([] ++ [row]) hex2
      refine ⟨msg, ?_⟩
      simp only [List.foldlM_cons, streamStep, hrow, Except.map, Bind.bind, Except.bind]
      exact hmsg

/-- C10: if the first non-blank line of a line-delimited source parses to an
object, any later non-blank object carrying a field name absent from that
first object makes the tabular export raise (the `DictWriter` default is
`extrasaction="raise"`, so the extra field is not silently dropped), while
blank lines are skipped: a successful export emits exactly one data row per
non-blank line. -/
theorem stream_csv_extra_field_error
    (file : List Line) (o0 : List (String × JVal)) (rest : List (List (String × JVal)))
    (hfirst : objsOf file = o0 :: rest) :
    ((∃ o ∈ rest, ∃ k ∈ o.map Prod.fst, k ∉ o0.map Prod.fst) →
      ∃ msg, stream_jsonl_to_csv file = .error msg) ∧
    (∀ hdr rows, stream_jsonl_to_csv file = .ok (hdr, rows) →
      rows.length = (objsOf file).length) := by
  constructor
  · intro hex
    exact stream_error_from_start file o0 rest hfirst hex
  · intro hdr rows h
    have := foldl_rows_length file none [] hdr rows h
    simpa using this

/-- Witness for C10: a three-line file whose third line has the extra field
`"y"` makes the export error out, and a successful export writes one row per
non-blank line. -/
theorem stream_csv_extra_field_error_witness :
    ((∃ o ∈ [[("x", JVal.str "v2"), ("y", JVal.str "w")]],
        ∃ k ∈ o.map Prod.fst, k ∉ ([("x", JVal.str "v1")].map Prod.fst : List String)) →
      ∃ msg, stream_jsonl_to_csv
        [Line.obj [("x", JVal.str "v1")], Line.blank,
         Line.obj [("x", JVal.str "v2"), ("y", JVal.str "w")]] = .error msg) ∧
    (∀ hdr rows, stream_jsonl_to_csv
        [Line.obj [("x", JVal.str "v1")], Line.blank,
         Line.obj [("x", JVal.str "v2"), ("y", JVal.str "w")]] = .ok (hdr, rows) →
      rows.length = (objsOf
        [Line.obj [("x", JVal.str "v1")], Line.blank,
         Line.obj [("x", JVal.str "v2"), ("y", JVal.str "w")]]).length) :=
  stream_csv_extra_field_error
    [Line.obj [("x", JVal.str "v1")], Line.blank,
     Line.obj [("x", JVal.str "v2"), ("y", JVal.str "w")]]
    [("x", JVal.str "v1")] [[("x", JVal.str "v2"), ("y", JVal.str "w")]] (by decide)

section ConcreteRuns2

attribute [local semireducible] Rat.add Rat.mul Rat.sub Rat.inv Rat.ofScientific

/-- C7 (amended): a non-positive row count, an out-of-range root probability,
inverted health bounds, malformed timestamp text, and an inverted time window
are each detected before any record is generated and terminate the run with a
message; a non-positive depth ceiling, however, is not validated: a concrete
run with `max_level_tree = 0` proceeds and generates its record. -/
theorem main_validation_amended :
    (∀ (a : Args) (rng : SeededRng) (u : UuidSrc),
      (a.rows ≤ 0 ∨ ¬(0 ≤ a.root_share ∧ a.root_share ≤ 1) ∨ a.buffer_max < a.buffer_min ∨
        parseIsoZ a.start_ts = none ∨ parseIsoZ a.end_ts = none ∨
        (∀ s e, parseIsoZ a.start_ts = some s → parseIsoZ a.end_ts = some e → e ≤ s)) →
      ∃ msg, Script.main a rng u = .error msg) ∧
    Script.main ⟨1, 1/10, 0, 200, DSTART, DEND, 0⟩ rngK uK
      = .ok [⟨"2025-01-01T00:00:00.000Z", "a", 0, "a", "CDN", 1⟩] := by
  constructor
  · intro a rng u hbad
    unfold Script.main
    by_cases h1 : a.rows ≤ 0
    · rw [if_pos h1]
      exact ⟨_, rfl⟩
    rw [if_neg h1]
    by_cases h2 : ¬(0 ≤ a.root_share ∧ a.root_share ≤ 1)
    · rw [if_pos h2]
      exact ⟨_, rfl⟩
    rw [if_neg h2]
    by_cases h3 : a.buffer_max < a.buffer_min
    · rw [if_pos h3]
      exact ⟨_, rfl⟩
    rw [if_neg h3]
    unfold generate_nodes
    cases hps : parseIsoZ a.start_ts with
    | none =>
      exact ⟨"Invalid timestamp format. Use ISO like 2025-07-14T09:51:36.000Z", rfl⟩
    | some s =>
      cases hpe : parseIsoZ a.end_ts with
      | none =>
        exact ⟨"Invalid timestamp format. Use ISO like 2025-07-14T09:51:36.000Z", rfl⟩
      | some e =>
        have hse : e ≤ s := by
          rcases hbad with hb | hb | hb | hb | hb | hb
          · exact absurd hb h1
          · exact absurd hb h2
          · exact absurd hb h3
          · rw [hps] at hb
            exact Option.noConfusion hb
          · rw [hpe] at hb
            exact Option.noConfusion hb
          · exact hb s e hps hpe
        refine ⟨"--end-ts must be after --start-ts", ?_⟩
        show (if e ≤ s then (Except.error "--end-ts must be after --start-ts" : Except String (List Node))
            else Except.map GenState.nodes
              (genUpTo ⟨a.rows.toNat, a.root_share, a.buffer_min, a.buffer_max, (s : ℤ), (e : ℤ),
                a.max_level_tree⟩ rng u a.rows.toNat))
          = Except.error "--end-ts must be after --start-ts"
        rw [if_pos hse]
  · decide

/-- Counterexample to C7 as stated: `max_level_tree = 0` is non-positive, yet
the run is not terminated before generation — it completes and produces its
record. -/
theorem main_nonpositive_depth_not_validated :
    (⟨1, 1/10, 0, 200, DSTART, DEND, 0⟩ : Args).max_level_tree ≤ 0 ∧
    Script.main ⟨1, 1/10, 0, 200, DSTART, DEND, 0⟩ rngK uK
      = .ok [⟨"2025-01-01T00:00:00.000Z", "a", 0, "a", "CDN", 1⟩] :=
  ⟨by decide, by decide⟩

/-- Witness for C7 (amended): a zero row count is rejected with a message. -/
theorem main_validation_amended_witness :
    ∃ msg, Script.main ⟨0, 1/10, 0, 200, DSTART, DEND, 100⟩ rngK uK = .error msg :=
  main_validation_amended.1 ⟨0, 1/10, 0, 200, DSTART, DEND, 100⟩ rngK uK (Or.inl (by decide))

/-- C5: the seed does not determine the output. Two runs with the identical
configuration and the identical seeded `random`-module stream (as fixed by the
same seed) but different `uuid.uuid4()` entropy — which `random.seed` does not
control — produce different records, hence different output bytes. This
contradicts the documented reproducibility of `--seed`. -/
theorem seed_does_not_determine_output (rng : SeededRng) :
    Script.main ⟨1, 1/10, 0, 200, DSTART, DEND, 100⟩ rng uK ≠
    Script.main ⟨1, 1/10, 0, 200, DSTART, DEND, 100⟩ rng uB := by
  intro h
  have h2 : ("a" : String) = "b" := congrArg (fun res =>
    match res with
    | Except.ok (x :: _) => x.NodeId
    | _ => "") h
  exact absurd h2 (by decide)

/-- Counterexample to C6 as stated: the streaming export of a generated
one-record run has the header `csvFields`, which contains `level` — the level
field is not omitted, and the column set is not the five-name whitelist. -/
theorem stream_csv_includes_level_cx :
    generate_nodes 1 (1/10) 0 200 DSTART DEND 100 rngK uK
      = .ok [⟨"2025-01-01T00:00:00.000Z", "a", 0, "a", "CDN", 1⟩] ∧
    stream_jsonl_to_csv (write_jsonl [⟨"2025-01-01T00:00:00.000Z", "a", 0, "a", "CDN", 1⟩])
      = .ok (some csvFields,
          [[JVal.str "2025-01-01T00:00:00.000Z", JVal.str "a", JVal.num 0, JVal.str "a",
            JVal.str "CDN", JVal.num 1]]) ∧
    "level" ∈ csvFields ∧
    "level" ∉ (["timestamp", "NodeId", "BufferHealth", "SessionId", "Source"] : List String) :=
  ⟨by decide, by decide, by decide, by decide⟩

/-- Witness for C6 (amended) at the concrete one-record run. -/
theorem write_jsonl_stream_csv_roundtrip_witness :
    stream_jsonl_to_csv (write_jsonl [⟨"2025-01-01T00:00:00.000Z", "a", 0, "a", "CDN", 1⟩])
      = .ok (some csvFields,
          ([⟨"2025-01-01T00:00:00.000Z", "a", 0, "a", "CDN", 1⟩] : List Node).map rowOf) ∧
    (([⟨"2025-01-01T00:00:00.000Z", "a", 0, "a", "CDN", 1⟩] : List Node).map rowOf).length = 1 ∧
    "level" ∈ csvFields :=
  write_jsonl_stream_csv_roundtrip 1 (1/10) 0 200 DSTART DEND 100 rngK uK
    [⟨"2025-01-01T00:00:00.000Z", "a", 0, "a", "CDN", 1⟩] (by decide) (by decide)

/-- Witness for C8 at `start = 0`, `end = 2`, `r = 1/2`. -/
theorem random_timestamp_spec_witness :
    ((0 : ℤ) ≤ randomTimestampSec 0 2 (1/2) ∧ randomTimestampSec 0 2 (1/2) ≤ 2) ∧
    (∀ t : ℤ, randomTimestampSec 0 2 (1/2) = t ↔
      ((t : ℚ) - ((0 : ℤ) : ℚ) ≤ (1/2) * (((2 : ℤ) : ℚ) - ((0 : ℤ) : ℚ)) ∧
        (1/2) * (((2 : ℤ) : ℚ) - ((0 : ℤ) : ℚ)) < (t : ℚ) - ((0 : ℤ) : ℚ) + 1)) ∧
    (∃ p, random_timestamp 0 2 (1/2) = p ++ ".000Z") :=
  random_timestamp_spec 0 2 (1/2) (by decide) (by decide) (by decide)

/-- Counterexample to C9 as stated: with health bounds `[0.009, 0.009]` the
generated record's `BufferHealth` is `round(0.009, 2) = 0.01`, which exceeds
the configured maximum. -/
theorem generate_nodes_buffer_health_cx :
    generate_nodes 1 (1/10) (9/1000) (9/1000) DSTART DEND 100 rngK uK
      = .ok [⟨"2025-01-01T00:00:00.000Z", "a", 1/100, "a", "CDN", 1⟩] ∧
    ¬((1 : ℚ)/100 ≤ 9/1000) :=
  ⟨by decide, by decide⟩

/-- Witness for C9 (amended) at the two-row run, record 1. -/
theorem generate_nodes_buffer_health_bounds_witness :
    (∃ q, (0 : ℚ) ≤ q ∧ q ≤ 200 ∧ nodesPair[1].BufferHealth = pyRound2 q) ∧
    (0 : ℚ) - 1/200 ≤ nodesPair[1].BufferHealth ∧ nodesPair[1].BufferHealth ≤ 200 + 1/200 :=
  generate_nodes_buffer_health_bounds 2 (1/10) 0 200 DSTART DEND 100 rngK uK nodesPair
    (by decide)
    (fun _ => ⟨(by decide : (0 : ℚ) ≤ 0), (by decide : (0 : ℚ) ≤ 1)⟩)
    (by decide) 1 (by decide)

end ConcreteRuns2
